import Mathlib

/-!
Shallow embedding of `src/atom_evaluation/scripts/range_sensor_to_camera_evaluation.py`.

The script evaluates a range-sensor-to-camera extrinsic calibration: it grafts the
optimized transforms from a training dataset into a test dataset, drops collections
where the calibration pattern was not detected by the two sensors under test,
projects the labelled 3-D range points of each surviving collection into the camera
image, matches every in-bounds projected point against the ground-truth reference
points, and prints a table of per-collection statistics with a bottom "Averages" row.

Conventions of the embedding:
  * Python floats are modelled as exact rationals (inputs, pixel coordinates) and
    exact reals (values produced by `math.sqrt`); rounding of IEEE doubles is not
    modelled.
  * `math.sqrt` is `Real.sqrt`, so the per-point Euclidean distances live in `ℝ`.
  * fallible steps (KeyError, IndexError, TypeError aborts of the script) are
    modelled with `Option`: `none` is an uncaught exception.
  * dictionaries are association lists in iteration order; per-sensor flag lookups
    are total functions `String → Bool`.
-/

namespace AtomEval

/-- A 2-D pixel point (x, y). -/
abbrev Pt : Type := ℚ × ℚ

/-- A 3-D point (x, y, z). -/
abbrev Pt3 : Type := ℚ × ℚ × ℚ

/-- Squared Euclidean distance `(x_proj-x)**2 + (y_proj-y)**2` (source line 210,
under the square root). -/
def dist2 (p q : Pt) : ℚ := (p.1 - q.1) ^ 2 + (p.2 - q.2) ^ 2

/-- Euclidean distance `math.sqrt((x_proj-x)**2 + (y_proj-y)**2)` (source line 210). -/
noncomputable def edist (p q : Pt) : ℝ := Real.sqrt ((dist2 p q : ℚ) : ℝ)

/-- Initial value of `min_error`: `sys.float_info.max` (source line 204). -/
noncomputable def floatMax : ℝ := (2 ^ 53 - 1) * 2 ^ 971

/-- Initial matcher state `(min_error, x_min, y_min) = (sys.float_info.max, None, None)`
(source lines 204-206). -/
noncomputable def matchInit : ℝ × Option ℚ × Option ℚ := (floatMax, none, none)

/-- One iteration of the innermost matching loop (source lines 210-214): compute the
distance from the projected point `p` to the reference point `r` and keep `r` as the
running minimizer when the distance is strictly below the running minimum. -/
noncomputable def matchStep (p : Pt) (st : ℝ × Option ℚ × Option ℚ) (r : Pt) :
    ℝ × Option ℚ × Option ℚ :=
  if edist p r < st.1 then (edist p r, some r.1, some r.2) else st

/-- The nearest-reference search for one projected point (source lines 204-214):
iterate over every side of the collection's ground-truth data and every reference
point of that side, pooled in iteration order. -/
noncomputable def matchLoop (p : Pt) (sides : List (List Pt)) : ℝ × Option ℚ × Option ℚ :=
  sides.foldl (fun st side => side.foldl (matchStep p) st) matchInit

/-- Camera intrinsics: focal lengths and principal point contributed by the 3×3
matrix `K` (the script reads all 9 values, source line 59; only these four enter the
OpenCV-style projection). -/
structure Intrin where
  fx : ℚ
  fy : ℚ
  cx : ℚ
  cy : ℚ

/-- Distortion coefficients `D = (k1, k2, p1, p2, k3)` (source line 60; the spec
writes `k5` for the `r⁶` coefficient, the fifth entry of `D`). -/
structure Dist where
  k1 : ℚ
  k2 : ℚ
  p1 : ℚ
  p2 : ℚ
  k3 : ℚ

/-- Modelled from the spec: the per-point arithmetic of `projectToCamera` from
`atom_core.vision` (called at source line 62, its code is not in the repository
files): pinhole projection `x' = X/Z`, `y' = Y/Z`, radial distortion
`r² = x'²+y'²`, `x'' = x'(1+k1·r²+k2·r⁴+k3·r⁶) +` tangential terms, `y''`
analogous, then pixel coordinates via `K`.  Division by a zero depth follows the
Lean convention `a / 0 = 0`; the spec declares non-positive depth undefined/invalid
and no theorem below evaluates this function at `z = 0`. -/
def projectPoint (K : Intrin) (D : Dist) (p : Pt3) : Pt :=
  let xp := p.1 / p.2.2
  let yp := p.2.1 / p.2.2
  let r2 := xp ^ 2 + yp ^ 2
  let radial := 1 + D.k1 * r2 + D.k2 * r2 ^ 2 + D.k3 * r2 ^ 3
  let xpp := xp * radial + 2 * D.p1 * xp * yp + D.p2 * (r2 + 2 * xp ^ 2)
  let ypp := yp * radial + D.p1 * (r2 + 2 * yp ^ 2) + 2 * D.p2 * xp * yp
  (K.fx * xpp + K.cx, K.fy * ypp + K.cy)

/-- Modelled from the spec: `projectToCamera(K, D, width, height, points_cam)`
returns `(points_2d, valid_mask, depth)` — pixel coordinates for all N points
(out-of-bounds or behind-camera points are flagged, not removed), a validity flag
per point (positive depth and inside the image), and the depths. -/
def projectToCamera (K : Intrin) (D : Dist) (w h : ℚ) (pts : List Pt3) :
    List Pt × List Bool × List ℚ :=
  (pts.map (projectPoint K D),
   pts.map (fun p =>
     decide (0 < p.2.2) && decide (0 ≤ (projectPoint K D p).1)
       && decide ((projectPoint K D p).1 ≤ w)
       && decide (0 ≤ (projectPoint K D p).2) && decide ((projectPoint K D p).2 ≤ h)),
   pts.map (fun p => p.2.2))

/-- Projection part of `rangeToImage` (source lines 55-64): project the camera-frame
points and keep only the pixel coordinates — `pts_in_image, _, _ = projectToCamera(...)`
discards the validity mask and the depths, so every point flows downstream.
`w`/`h` are the dataset-declared image dimensions (source line 58). -/
def rangeToImage (K : Intrin) (D : Dist) (w h : ℚ) (ptsCam : List Pt3) : List Pt :=
  (projectToCamera K D w h ptsCam).1

/-- Outcome of the body of the per-point loop (source lines 196-218) for one
projected point: skipped by the image-bounds check (`continue`), crashed
(`abs(x_proj - x_min)` raises `TypeError` because `x_min` is still `None`), or an
error record appended to `x_errors`, `y_errors`, `rms_errors`. -/
inductive PointOutcome : Type where
  | skipped : PointOutcome
  | crash : PointOutcome
  | matched : ℚ → ℚ → ℝ → PointOutcome

/-- Body of the per-point loop (source lines 196-218).  The bounds test
(source line 201) compares against the loaded image's shape: `W` is
`image.shape[1]`, `H` is `image.shape[0]`. -/
noncomputable def processPoint (W H : ℚ) (sides : List (List Pt)) (p : Pt) : PointOutcome :=
  if p.1 > W ∨ p.1 < 0 ∨ p.2 > H ∨ p.2 < 0 then PointOutcome.skipped
  else
    match matchLoop p sides with
    | (m, some xm, some ym) => PointOutcome.matched |p.1 - xm| |p.2 - ym| m
    | _ => PointOutcome.crash

/-- The per-point loop over all projected points of one collection (source lines
193-218), accumulating `(x_errors, y_errors, rms_errors)`; `none` when the loop
raises on some point. -/
noncomputable def collectErrors (W H : ℚ) (sides : List (List Pt)) :
    List Pt → Option (List ℚ × List ℚ × List ℝ)
  | [] => some ([], [], [])
  | p :: ps =>
    match processPoint W H sides p with
    | PointOutcome.skipped => collectErrors W H sides ps
    | PointOutcome.crash => none
    | PointOutcome.matched xe ye d =>
        (collectErrors W H sides ps).map (fun r => (xe :: r.1, ye :: r.2.1, d :: r.2.2))

/-- Arithmetic mean (`np.average`) of a list of rationals. -/
def qmean (l : List ℚ) : ℚ := l.sum / l.length

/-- Arithmetic mean (`np.average`) of a list of reals. -/
noncomputable def rmean (l : List ℝ) : ℝ := l.sum / l.length

/-- Per-collection entry of the error dictionary `e[collection_key]`
(source lines 229-231). -/
structure CollStats : Type where
  x : ℝ
  y : ℝ
  rms : ℝ

/-- One collection of the test dataset as the evaluation loop sees it:
per-sensor detection flags (`labels[sensor]['detected']`), the labelled limit
points already expressed in the camera frame (the result of applying `vel2cam`,
source line 55), the dataset-declared image size passed to the projection
(source line 58), the size of the image loaded from disk (`image.shape`, source
line 181), and the ground-truth reference points per side. -/
structure Collection : Type where
  labels : String → Bool
  ptsCam : List Pt3
  declW : ℚ
  declH : ℚ
  imgW : ℚ
  imgH : ℚ
  sides : List (List Pt)

/-- Body of the per-collection evaluation loop (source lines 168-231): project the
range points, match them, and either record no entry for the collection (`continue`
when `rms_errors` is empty, source lines 225-227) or the three `np.average`
statistics (source lines 229-231).  The outer `none` is a crash of the loop body. -/
noncomputable def evalCollection (K : Intrin) (D : Dist) (c : Collection) :
    Option (Option CollStats) :=
  (collectErrors c.imgW c.imgH c.sides (rangeToImage K D c.declW c.declH c.ptsCam)).map
    (fun r =>
      if r.2.2.isEmpty then none
      else some ⟨((qmean r.1 : ℚ) : ℝ), ((qmean r.2.1 : ℚ) : ℝ), rmean r.2.2⟩)

/-- The evaluation loop over all surviving collections in iteration order
(source lines 166-231), building the error dictionary `e`: an entry `(k, none)`
is a collection that was skipped with the diagnostic message of source line 226. -/
noncomputable def evalAll (K : Intrin) (D : Dist) :
    List (ℕ × Collection) → Option (List (ℕ × Option CollStats))
  | [] => some []
  | c :: cs =>
    (evalCollection K D c.2).bind (fun s =>
      (evalAll K D cs).map (fun e => (c.1, s) :: e))

/-- Formatting of a table cell, `'%.4f' % v`, composed with the `float(...)` parse
of the averages loop (source lines 249-251 and 267): rounding to 4 decimal places.
Python rounds the underlying binary double half-to-even; the embedding rounds
half-up — the two agree on every value considered below, each exactly
representable with 4 decimals. -/
noncomputable def round4 (x : ℝ) : ℝ := ((round (x * 10000) : ℤ) : ℝ) / 10000

/-- The table-row loop (source lines 246-253): one row per collection of the
(filtered) test dataset, reading `e[collection_key]['rms'|'x'|'y']`.  A collection
whose entry was never filled (source line 169 left it empty) raises `KeyError`,
modelled by `none`. -/
noncomputable def buildRows : List (ℕ × Option CollStats) → Option (List (ℕ × ℝ × ℝ × ℝ))
  | [] => some []
  | (_, none) :: _ => none
  | (k, some s) :: rest =>
    (buildRows rest).map (fun rows => (k, round4 s.rms, round4 s.x, round4 s.y) :: rows)

/-- The bottom "Averages" row (source lines 256-274): per numeric column, the sum of
the parsed row values divided by their count (every numeric cell parses, so the
count is the number of rows). -/
noncomputable def bottomRow (rows : List (ℕ × ℝ × ℝ × ℝ)) : ℝ × ℝ × ℝ :=
  (rmean (rows.map (fun r => r.2.1)),
   rmean (rows.map (fun r => r.2.2.1)),
   rmean (rows.map (fun r => r.2.2.2)))

/-- Deletion test of the pre-filter (source lines 148-157): some sensor has no
detection for this collection and is one of the two sensors under test. -/
def shouldDelete (sensors : List String) (rs cs : String) (labels : String → Bool) : Bool :=
  sensors.any (fun s => !(labels s) && (s == cs || s == rs))

/-- The dataset-level pre-filter (source lines 147-160): drop every collection
marked by `shouldDelete` from the test dataset. -/
def filterCollections (sensors : List String) (rs cs : String)
    (colls : List (ℕ × Collection)) : List (ℕ × Collection) :=
  colls.filter (fun c => !(shouldDelete sensors rs cs c.2.labels))

/-- Insertion into a key-sorted list of collections. -/
def insertByKey {α : Type} (x : ℕ × α) : List (ℕ × α) → List (ℕ × α)
  | [] => [x]
  | y :: ys => if x.1 ≤ y.1 then x :: y :: ys else y :: insertByKey x ys

/-- Sorting of the collection items by integer key, `OrderedDict(sorted(...,
key=lambda t: int(t[0])))` (source lines 166 and 246). -/
def sortByKey {α : Type} : List (ℕ × α) → List (ℕ × α)
  | [] => []
  | x :: xs => insertByKey x (sortByKey xs)

/-- The whole evaluation after dataset loading (source lines 147-276): pre-filter
the collections, evaluate each surviving collection in ascending key order, build
the per-collection rows over the same collection set, and append the averages row.
`none` is an uncaught exception of the script. -/
noncomputable def runEvaluation (sensors : List String) (rs cs : String)
    (K : Intrin) (D : Dist) (colls : List (ℕ × Collection)) :
    Option (List (ℕ × ℝ × ℝ × ℝ) × (ℝ × ℝ × ℝ)) :=
  let kept := sortByKey (filterCollections sensors rs cs colls)
  (evalAll K D kept).bind (fun e =>
    (buildRows e).map (fun rows => (rows, bottomRow rows)))

/-- Following the spec's words, for comparison with the code: the global RMS is
"true RMS = sqrt(mean(distance²)) over the pooled set" of every matched pair from
every collection. -/
noncomputable def specGlobalRMS (pooled : List ℝ) : ℝ :=
  Real.sqrt (rmean (pooled.map (fun d => d ^ 2)))

/-- Identity-like intrinsics (unit focal lengths, principal point at the origin),
used by the concrete runs below. -/
def idK : Intrin := ⟨1, 1, 0, 0⟩

/-- Zero distortion, used by the concrete runs below. -/
def noDist : Dist := ⟨0, 0, 0, 0, 0⟩

/-! ## Transform grafting (source lines 116-130) -/

/-- A transform entry of a collection: quaternion (4 scalars) and translation
(3 scalars). -/
structure TransformQT : Type where
  quat : List ℚ
  trans : List ℚ

/-- The part of a training-dataset sensor the grafting loop reads:
`calibration_parent` and `calibration_child` (source lines 117-118). -/
structure TrainSensor : Type where
  calibParent : String
  calibChild : String

/-- Modelled from the spec: `generateKey` from `atom_core.naming` (called at
source line 119, its code is not in the repository files) — transforms are keyed
by the `"parent-child"` string. -/
def generateKey (parent child : String) : String := parent ++ "-" ++ child

/-- The optimized transform of one named edge, read from the first training
collection in dataset iteration order (source lines 124-125); `none` is the
KeyError/IndexError when the collection list is empty or the name is absent. -/
def firstTrainTransform (trainColls : List (String × List (String × TransformQT)))
    (name : String) : Option TransformQT :=
  trainColls.head?.bind (fun tc => tc.2.lookup name)

/-- Assignment `collection['transforms'][transform_name]['quat'|'trans'] = ...`
(source lines 129-130) on one collection's transform list: replaces both fields of
the named entry; `none` is the KeyError when the name is absent. -/
def setTransform (name : String) (qt : TransformQT) (ts : List (String × TransformQT)) :
    Option (List (String × TransformQT)) :=
  if (ts.lookup name).isSome then
    some (ts.map (fun nt => if nt.1 = name then (nt.1, qt) else nt))
  else none

/-- The inner grafting loop (source lines 128-130): write the optimized transform
into every collection of the test dataset. -/
def setAllCollections (name : String) (qt : TransformQT) :
    List (ℕ × List (String × TransformQT)) →
      Option (List (ℕ × List (String × TransformQT)))
  | [] => some []
  | c :: cs =>
    (setTransform name qt c.2).bind (fun ts =>
      (setAllCollections name qt cs).map (fun rest => (c.1, ts) :: rest))

/-- One iteration of the grafting loop (source lines 116-130) for one training
sensor: read the optimized transform from the first training collection and write
it into every test collection. -/
def graftSensor (trainColls : List (String × List (String × TransformQT)))
    (s : TrainSensor) (testColls : List (ℕ × List (String × TransformQT))) :
    Option (List (ℕ × List (String × TransformQT))) :=
  match trainColls with
  | [] => none
  | tc :: _ =>
    match tc.2.lookup (generateKey s.calibParent s.calibChild) with
    | none => none
    | some qt => setAllCollections (generateKey s.calibParent s.calibChild) qt testColls

/-- The whole grafting loop over every sensor of the training dataset
(source lines 116-130). -/
def graftAll : List TrainSensor → List (String × List (String × TransformQT)) →
    List (ℕ × List (String × TransformQT)) →
      Option (List (ℕ × List (String × TransformQT)))
  | [], _, testColls => some testColls
  | s :: ss, trainColls, testColls =>
    (graftSensor trainColls s testColls).bind (fun tc => graftAll ss trainColls tc)

/-- The relation between an in-bounds projected point and the error record the
loop appends for it (source lines 216-218): some pooled reference point `r`
realizes the record — absolute per-axis errors and Euclidean distance — and no
pooled reference point is strictly closer. -/
def MatchedRecord (sides : List (List Pt)) (p : Pt) (xe ye : ℚ) (d : ℝ) : Prop :=
  ∃ r ∈ sides.flatten,
    xe = |p.1 - r.1| ∧ ye = |p.2 - r.2| ∧ d = edist p r ∧
    ∀ q ∈ sides.flatten, d ≤ edist p q

/-! ## Matcher lemmas -/

lemma edist_nonneg (p q : Pt) : 0 ≤ edist p q := Real.sqrt_nonneg _

lemma edist_self (p : Pt) : edist p p = 0 := by
  simp [edist, dist2]

/-- Helper to evaluate a distance whose square is a perfect rational square. -/
lemma edist_eq_of_sq (p q : Pt) (r : ℚ) (hr : 0 ≤ r) (h : r ^ 2 = dist2 p q) :
    edist p q = (r : ℝ) := by
  rw [edist, ← h]
  push_cast
  exact Real.sqrt_sq (by exact_mod_cast hr)

/-- Every distance considered in the concrete runs below is far below
`sys.float_info.max`. -/
lemma lt_floatMax_of_le_million (x : ℝ) (h : x ≤ 1000000) : x < floatMax := by
  refine lt_of_le_of_lt h ?_
  rw [floatMax]
  norm_num

/-- Unfolding of the nested matcher fold (over sides, then over the points of a
side) to a single fold over the pooled reference list. -/
lemma matchLoop_eq_flatten (p : Pt) (sides : List (List Pt)) :
    matchLoop p sides = (sides.flatten).foldl (matchStep p) matchInit := by
  rw [matchLoop, List.foldl_flatten]

/-- Behaviour of the matcher fold from an arbitrary running state: either no
reference point is strictly closer than the incoming minimum and the state passes
through unchanged, or the fold returns the first reference point achieving the
minimum distance (strict improvement over the incoming minimum, strictly better
than every earlier point, at least as good as every point of the list). -/
lemma foldl_matchStep_spec (p : Pt) :
    ∀ (l : List Pt) (m0 : ℝ) (s0 : Option ℚ × Option ℚ),
      (l.foldl (matchStep p) (m0, s0) = (m0, s0) ∧ ∀ r ∈ l, m0 ≤ edist p r) ∨
      (∃ (i : ℕ) (hi : i < l.length),
        l.foldl (matchStep p) (m0, s0) =
          (edist p (l.get ⟨i, hi⟩), some (l.get ⟨i, hi⟩).1, some (l.get ⟨i, hi⟩).2) ∧
        edist p (l.get ⟨i, hi⟩) < m0 ∧
        (∀ (j : ℕ) (hj : j < l.length), j < i →
          edist p (l.get ⟨i, hi⟩) < edist p (l.get ⟨j, hj⟩)) ∧
        (∀ r ∈ l, edist p (l.get ⟨i, hi⟩) ≤ edist p r)) := by
  intro l
  induction l with
  | nil => intro m0 s0; exact Or.inl ⟨rfl, by simp⟩
  | cons r t ih =>
    intro m0 s0
    rw [List.foldl_cons]
    by_cases h : edist p r < m0
    · have hstep : matchStep p (m0, s0) r = (edist p r, some r.1, some r.2) := by
        simp only [matchStep]; rw [if_pos h]
      rw [hstep]
      rcases ih (edist p r) (some r.1, some r.2) with ⟨heq, hall⟩ | ⟨i, hi, heq, hlt, hfst, hmin⟩
      · refine Or.inr ⟨0, by simp, ?_, h, ?_, ?_⟩
        · simpa using heq
        · intro j hj hj0; omega
        · intro q hq
          rcases List.mem_cons.mp hq with hq | hq
          · subst hq; simp
          · simpa using hall q hq
      · refine Or.inr ⟨i + 1, by simpa using Nat.succ_lt_succ hi, ?_, ?_, ?_, ?_⟩
        · simpa using heq
        · exact lt_trans hlt h
        · intro j hj hji
          cases j with
          | zero => simpa using hlt
          | succ j0 =>
            have hj0 : j0 < t.length := by simpa using hj
            simpa using hfst j0 hj0 (by omega)
        · intro q hq
          rcases List.mem_cons.mp hq with hq | hq
          · subst hq; simpa using le_of_lt hlt
          · simpa using hmin q hq
    · have hstep : matchStep p (m0, s0) r = (m0, s0) := by
        simp only [matchStep]; rw [if_neg h]
      rw [hstep]
      rcases ih m0 s0 with ⟨heq, hall⟩ | ⟨i, hi, heq, hlt, hfst, hmin⟩
      · refine Or.inl ⟨heq, ?_⟩
        intro q hq
        rcases List.mem_cons.mp hq with hq | hq
        · subst hq; exact le_of_not_lt h
        · exact hall q hq
      · refine Or.inr ⟨i + 1, by simpa using Nat.succ_lt_succ hi, ?_, ?_, ?_, ?_⟩
        · simpa using heq
        · exact hlt
        · intro j hj hji
          cases j with
          | zero =>
            simpa using lt_of_lt_of_le hlt (le_of_not_lt h)
          | succ j0 =>
            have hj0 : j0 < t.length := by simpa using hj
            simpa using hfst j0 hj0 (by omega)
        · intro q hq
          rcases List.mem_cons.mp hq with hq | hq
          · subst hq; simpa using le_of_lt (lt_of_lt_of_le hlt (le_of_not_lt h))
          · simpa using hmin q hq

/-- When the matcher ends with a selected point, that point is the first pooled
reference point minimizing the Euclidean distance, and the reported minimum is its
distance. -/
lemma matchLoop_found (p : Pt) (sides : List (List Pt)) (m : ℝ) (xm ym : ℚ)
    (h : matchLoop p sides = (m, some xm, some ym)) :
    ∃ (i : ℕ) (hi : i < sides.flatten.length),
      (xm, ym) = sides.flatten.get ⟨i, hi⟩ ∧
      m = edist p (sides.flatten.get ⟨i, hi⟩) ∧
      m < floatMax ∧
      (∀ r ∈ sides.flatten, m ≤ edist p r) ∧
      (∀ (j : ℕ) (hj : j < sides.flatten.length), j < i →
        m < edist p (sides.flatten.get ⟨j, hj⟩)) := by
  rw [matchLoop_eq_flatten] at h
  have hinit : matchInit = ((floatMax : ℝ), ((none : Option ℚ), (none : Option ℚ))) := rfl
  rw [hinit] at h
  rcases foldl_matchStep_spec p sides.flatten floatMax (none, none) with
    ⟨heq, _⟩ | ⟨i, hi, heq, hlt, hfst, hmin⟩
  · exfalso
    rw [h] at heq
    have hbad : (some xm : Option ℚ) = none := congrArg (fun st => st.2.1) heq
    exact Option.noConfusion hbad
  · rw [h] at heq
    have h1 : m = edist p (sides.flatten.get ⟨i, hi⟩) := congrArg (fun st => st.1) heq
    have h2 : xm = (sides.flatten.get ⟨i, hi⟩).1 :=
      Option.some.inj (congrArg (fun st => st.2.1) heq)
    have h3 : ym = (sides.flatten.get ⟨i, hi⟩).2 :=
      Option.some.inj (congrArg (fun st => st.2.2) heq)
    refine ⟨i, hi, ?_, h1, ?_, ?_, ?_⟩
    · rw [h2, h3]
    · rw [h1]; exact hlt
    · rw [h1]; exact hmin
    · intro j hj hji; rw [h1]; exact hfst j hj hji

/-- When the pooled reference set is non-empty (and no distance reaches the
`sys.float_info.max` sentinel), the matcher selects the first pooled reference
point at minimum Euclidean distance. -/
lemma matchLoop_min (p : Pt) (sides : List (List Pt))
    (hne : sides.flatten ≠ [])
    (hcap : ∀ r ∈ sides.flatten, edist p r < floatMax) :
    ∃ (i : ℕ) (hi : i < sides.flatten.length),
      matchLoop p sides =
        (edist p (sides.flatten.get ⟨i, hi⟩), some (sides.flatten.get ⟨i, hi⟩).1,
          some (sides.flatten.get ⟨i, hi⟩).2) ∧
      (∀ r ∈ sides.flatten, edist p (sides.flatten.get ⟨i, hi⟩) ≤ edist p r) ∧
      (∀ (j : ℕ) (hj : j < sides.flatten.length), j < i →
        edist p (sides.flatten.get ⟨i, hi⟩) < edist p (sides.flatten.get ⟨j, hj⟩)) := by
  rcases foldl_matchStep_spec p sides.flatten floatMax (none, none) with
    ⟨heq, hall⟩ | ⟨i, hi, heq, _, hfst, hmin⟩
  · exfalso
    obtain ⟨r, hr⟩ := List.exists_mem_of_ne_nil _ hne
    exact absurd (hall r hr) (not_le.mpr (hcap r hr))
  · refine ⟨i, hi, ?_, hmin, hfst⟩
    rw [matchLoop_eq_flatten]
    exact heq

/-- C5.  For every in-bounds projected point and non-empty pooled reference set
(each reference within float range), the per-point loop appends the error record
of the reference point minimizing the Euclidean distance; among ties the first
point in iteration order is selected (every earlier point is strictly farther);
and when the projected point itself is among the references the recorded distance
is 0. -/
theorem matcher_first_minimum (W H : ℚ) (p : Pt) (sides : List (List Pt))
    (hin : ¬(p.1 > W ∨ p.1 < 0 ∨ p.2 > H ∨ p.2 < 0))
    (hne : sides.flatten ≠ [])
    (hcap : ∀ r ∈ sides.flatten, edist p r < floatMax) :
    ∃ (i : ℕ) (hi : i < sides.flatten.length),
      processPoint W H sides p =
        PointOutcome.matched |p.1 - (sides.flatten.get ⟨i, hi⟩).1|
          |p.2 - (sides.flatten.get ⟨i, hi⟩).2|
          (edist p (sides.flatten.get ⟨i, hi⟩)) ∧
      (∀ r ∈ sides.flatten, edist p (sides.flatten.get ⟨i, hi⟩) ≤ edist p r) ∧
      (∀ (j : ℕ) (hj : j < sides.flatten.length), j < i →
        edist p (sides.flatten.get ⟨i, hi⟩) < edist p (sides.flatten.get ⟨j, hj⟩)) ∧
      (p ∈ sides.flatten → edist p (sides.flatten.get ⟨i, hi⟩) = 0) := by
  obtain ⟨i, hi, heq, hmin, hfst⟩ := matchLoop_min p sides hne hcap
  refine ⟨i, hi, ?_, hmin, hfst, ?_⟩
  · simp only [processPoint]
    rw [if_neg hin, heq]
  · intro hp
    have h0 : edist p (sides.flatten.get ⟨i, hi⟩) ≤ 0 := by
      have hle := hmin p hp
      rwa [edist_self] at hle
    exact le_antisymm h0 (edist_nonneg _ _)

/-- Closed instance of `matcher_first_minimum`: projected point (0,0), one side
holding the single reference point (3,4), a 100×100 image. -/
theorem matcher_first_minimum_witness :
    ∃ (i : ℕ) (hi : i < ([[((3 : ℚ), (4 : ℚ))]] : List (List Pt)).flatten.length),
      processPoint 100 100 [[((3 : ℚ), (4 : ℚ))]] ((0 : ℚ), (0 : ℚ)) =
        PointOutcome.matched
          |((0 : ℚ), (0 : ℚ)).1 - (([[((3 : ℚ), (4 : ℚ))]] : List (List Pt)).flatten.get ⟨i, hi⟩).1|
          |((0 : ℚ), (0 : ℚ)).2 - (([[((3 : ℚ), (4 : ℚ))]] : List (List Pt)).flatten.get ⟨i, hi⟩).2|
          (edist ((0 : ℚ), (0 : ℚ)) (([[((3 : ℚ), (4 : ℚ))]] : List (List Pt)).flatten.get ⟨i, hi⟩)) ∧
      (∀ r ∈ ([[((3 : ℚ), (4 : ℚ))]] : List (List Pt)).flatten,
        edist ((0 : ℚ), (0 : ℚ)) (([[((3 : ℚ), (4 : ℚ))]] : List (List Pt)).flatten.get ⟨i, hi⟩) ≤
          edist ((0 : ℚ), (0 : ℚ)) r) ∧
      (∀ (j : ℕ) (hj : j < ([[((3 : ℚ), (4 : ℚ))]] : List (List Pt)).flatten.length), j < i →
        edist ((0 : ℚ), (0 : ℚ)) (([[((3 : ℚ), (4 : ℚ))]] : List (List Pt)).flatten.get ⟨i, hi⟩) <
          edist ((0 : ℚ), (0 : ℚ)) (([[((3 : ℚ), (4 : ℚ))]] : List (List Pt)).flatten.get ⟨j, hj⟩)) ∧
      (((0 : ℚ), (0 : ℚ)) ∈ ([[((3 : ℚ), (4 : ℚ))]] : List (List Pt)).flatten →
        edist ((0 : ℚ), (0 : ℚ)) (([[((3 : ℚ), (4 : ℚ))]] : List (List Pt)).flatten.get ⟨i, hi⟩) = 0) := by
  refine matcher_first_minimum 100 100 ((0 : ℚ), (0 : ℚ)) [[((3 : ℚ), (4 : ℚ))]]
    (by norm_num) (by simp) ?_
  intro r hr
  have hr34 : r = ((3 : ℚ), (4 : ℚ)) := by simpa using hr
  subst hr34
  rw [edist_eq_of_sq ((0 : ℚ), (0 : ℚ)) ((3 : ℚ), (4 : ℚ)) 5 (by norm_num) (by norm_num [dist2])]
  exact lt_floatMax_of_le_million _ (by norm_num)

/-! ## Per-point loop lemmas -/

lemma processPoint_skipped_iff (W H : ℚ) (sides : List (List Pt)) (p : Pt) :
    processPoint W H sides p = PointOutcome.skipped ↔
      (p.1 > W ∨ p.1 < 0 ∨ p.2 > H ∨ p.2 < 0) := by
  constructor
  · intro h
    by_contra hc
    simp only [processPoint] at h
    rw [if_neg hc] at h
    rcases hml : matchLoop p sides with ⟨m, xo, yo⟩
    rw [hml] at h
    cases xo <;> cases yo <;> simp at h
  · intro h
    simp only [processPoint]
    rw [if_pos h]

/-- An appended error record comes from an in-bounds point and realizes a pooled
reference point of minimum distance. -/
lemma processPoint_matched (W H : ℚ) (sides : List (List Pt)) (p : Pt)
    (xe ye : ℚ) (d : ℝ)
    (h : processPoint W H sides p = PointOutcome.matched xe ye d) :
    ¬(p.1 > W ∨ p.1 < 0 ∨ p.2 > H ∨ p.2 < 0) ∧ MatchedRecord sides p xe ye d := by
  by_cases hc : p.1 > W ∨ p.1 < 0 ∨ p.2 > H ∨ p.2 < 0
  · exfalso
    simp only [processPoint] at h
    rw [if_pos hc] at h
    exact PointOutcome.noConfusion h
  · refine ⟨hc, ?_⟩
    simp only [processPoint] at h
    rw [if_neg hc] at h
    rcases hml : matchLoop p sides with ⟨m, xo, yo⟩
    rw [hml] at h
    cases xo with
    | none => exact absurd h (by simp)
    | some xm =>
      cases yo with
      | none => exact absurd h (by simp)
      | some ym =>
        have hxe : xe = |p.1 - xm| := by
          injection h with h1 h2 h3; exact h1.symm
        have hye : ye = |p.2 - ym| := by
          injection h with h1 h2 h3; exact h2.symm
        have hd : d = m := by
          injection h with h1 h2 h3; exact h3.symm
        obtain ⟨i, hi, hxy, hm, _, hminAll, _⟩ := matchLoop_found p sides m xm ym hml
        refine ⟨sides.flatten.get ⟨i, hi⟩, List.get_mem _ _ _, ?_, ?_, ?_, ?_⟩
        · rw [hxe]
          have : xm = (sides.flatten.get ⟨i, hi⟩).1 := congrArg Prod.fst hxy
          rw [this]
        · rw [hye]
          have : ym = (sides.flatten.get ⟨i, hi⟩).2 := congrArg Prod.snd hxy
          rw [this]
        · rw [hd, hm]
        · intro q hq
          rw [hd]
          exact hminAll q hq

/-- Characterization of the three per-collection error lists (source lines
193-218): the in-bounds projected points, in order, correspond one-to-one to the
appended `(x_error, y_error, rms_error)` records, each realizing a minimizing
pooled reference point. -/
lemma collectErrors_spec (W H : ℚ) (sides : List (List Pt)) :
    ∀ (pts : List Pt) (xs ys : List ℚ) (ds : List ℝ),
      collectErrors W H sides pts = some (xs, ys, ds) →
      List.Forall₂ (fun (p : Pt) (t : ℚ × ℚ × ℝ) => MatchedRecord sides p t.1 t.2.1 t.2.2)
        (pts.filter (fun p => !(decide (p.1 > W ∨ p.1 < 0 ∨ p.2 > H ∨ p.2 < 0))))
        (xs.zip (ys.zip ds)) := by
  intro pts
  induction pts with
  | nil =>
    intro xs ys ds h
    simp only [collectErrors, Option.some.injEq] at h
    obtain ⟨h1, h2, h3⟩ : ([] : List ℚ) = xs ∧ ([] : List ℚ) = ys ∧ ([] : List ℝ) = ds := by
      simpa [Prod.ext_iff] using h
    subst h1; subst h2; subst h3
    simp
  | cons p ps ih =>
    intro xs ys ds h
    rcases hpo : processPoint W H sides p with _ | _ | ⟨xe, ye, d0⟩
    · have hcond : (p.1 > W ∨ p.1 < 0 ∨ p.2 > H ∨ p.2 < 0) :=
        (processPoint_skipped_iff W H sides p).mp hpo
      simp only [collectErrors, hpo] at h
      have htail := ih xs ys ds h
      rwa [List.filter_cons_of_neg (by simp [hcond])]
    · simp only [collectErrors, hpo] at h
      exact absurd h (by simp)
    · simp only [collectErrors, hpo] at h
      rcases Option.map_eq_some'.mp h with ⟨⟨xs', ys', ds'⟩, hrec, heq⟩
      obtain ⟨hx, hy, hd⟩ : xe :: xs' = xs ∧ ye :: ys' = ys ∧ d0 :: ds' = ds := by
        simpa [Prod.ext_iff] using heq
      subst hx; subst hy; subst hd
      have hm := processPoint_matched W H sides p xe ye d0 hpo
      rw [List.filter_cons_of_pos (by simp [hm.1])]
      rw [List.zip_cons_cons, List.zip_cons_cons]
      exact List.Forall₂.cons hm.2 (ih xs' ys' ds' hrec)

/-! ## Concrete-evaluation helpers -/

lemma matchStep_init (p r : Pt) (h : edist p r < floatMax) :
    matchStep p matchInit r = (edist p r, some r.1, some r.2) := by
  simp only [matchStep, matchInit]
  exact if_pos h

lemma matchLoop_single (p r : Pt) (h : edist p r < floatMax) :
    matchLoop p [[r]] = (edist p r, some r.1, some r.2) := by
  simp only [matchLoop, List.foldl_cons, List.foldl_nil]
  exact matchStep_init p r h

lemma processPoint_single (W H : ℚ) (p r : Pt)
    (hin : ¬(p.1 > W ∨ p.1 < 0 ∨ p.2 > H ∨ p.2 < 0)) (h : edist p r < floatMax) :
    processPoint W H [[r]] p = PointOutcome.matched |p.1 - r.1| |p.2 - r.2| (edist p r) := by
  simp only [processPoint]
  rw [if_neg hin, matchLoop_single p r h]

lemma collectErrors_single (W H : ℚ) (p r : Pt)
    (hin : ¬(p.1 > W ∨ p.1 < 0 ∨ p.2 > H ∨ p.2 < 0)) (h : edist p r < floatMax) :
    collectErrors W H [[r]] [p] = some ([|p.1 - r.1|], [|p.2 - r.2|], [edist p r]) := by
  simp only [collectErrors, processPoint_single W H p r hin h, Option.map_some']

lemma collectErrors_cons_out (W H : ℚ) (sides : List (List Pt)) (p : Pt) (pts : List Pt)
    (hout : p.1 > W ∨ p.1 < 0 ∨ p.2 > H ∨ p.2 < 0) :
    collectErrors W H sides (p :: pts) = collectErrors W H sides pts := by
  have hs : processPoint W H sides p = PointOutcome.skipped :=
    (processPoint_skipped_iff W H sides p).mpr hout
  simp only [collectErrors, hs]

lemma matchLoop_no_refs (p : Pt) (sides : List (List Pt)) (hflat : sides.flatten = []) :
    matchLoop p sides = matchInit := by
  rw [matchLoop_eq_flatten, hflat, List.foldl_nil]

/-- With an empty pooled reference set, `x_min` stays `None` and the record append
raises `TypeError` (source line 216). -/
lemma processPoint_no_refs (W H : ℚ) (sides : List (List Pt)) (p : Pt)
    (hin : ¬(p.1 > W ∨ p.1 < 0 ∨ p.2 > H ∨ p.2 < 0)) (hflat : sides.flatten = []) :
    processPoint W H sides p = PointOutcome.crash := by
  simp only [processPoint]
  rw [if_neg hin, matchLoop_no_refs p sides hflat]
  rfl

lemma evalCollection_eq (K : Intrin) (D : Dist) (c : Collection)
    (xs ys : List ℚ) (ds : List ℝ)
    (h : collectErrors c.imgW c.imgH c.sides
          (rangeToImage K D c.declW c.declH c.ptsCam) = some (xs, ys, ds))
    (hne : ds.isEmpty = false) :
    evalCollection K D c =
      some (some ⟨((qmean xs : ℚ) : ℝ), ((qmean ys : ℚ) : ℝ), rmean ds⟩) := by
  rw [evalCollection, h, Option.map_some', hne]
  simp

lemma evalCollection_skip (K : Intrin) (D : Dist) (c : Collection)
    (xs ys : List ℚ)
    (h : collectErrors c.imgW c.imgH c.sides
          (rangeToImage K D c.declW c.declH c.ptsCam) = some (xs, ys, [])) :
    evalCollection K D c = some none := by
  rw [evalCollection, h, Option.map_some']
  rfl

lemma evalCollection_crash (K : Intrin) (D : Dist) (c : Collection)
    (h : collectErrors c.imgW c.imgH c.sides
          (rangeToImage K D c.declW c.declH c.ptsCam) = none) :
    evalCollection K D c = none := by
  rw [evalCollection, h]
  rfl

/-! ## Per-collection statistics (C6) -/

/-- C6.  For a collection with at least one matched point, the per-collection
entry holds: `x` = arithmetic mean of the absolute x-errors, `y` = mean of the
absolute y-errors, and the field reported as "RMS" = arithmetic mean of the
per-point Euclidean distances of the matched pairs (the in-bounds projected
points, each matched to a minimizing pooled reference point); a mean of distances
differs from a true root-mean-square in general. -/
theorem per_collection_stats_are_means (K : Intrin) (D : Dist) (c : Collection)
    (xs ys : List ℚ) (ds : List ℝ)
    (h : collectErrors c.imgW c.imgH c.sides
          (rangeToImage K D c.declW c.declH c.ptsCam) = some (xs, ys, ds))
    (hne : ds ≠ []) :
    evalCollection K D c =
      some (some ⟨((qmean xs : ℚ) : ℝ), ((qmean ys : ℚ) : ℝ), rmean ds⟩) ∧
    List.Forall₂ (fun (p : Pt) (t : ℚ × ℚ × ℝ) => MatchedRecord c.sides p t.1 t.2.1 t.2.2)
      ((rangeToImage K D c.declW c.declH c.ptsCam).filter
        (fun p => !(decide (p.1 > c.imgW ∨ p.1 < 0 ∨ p.2 > c.imgH ∨ p.2 < 0))))
      (xs.zip (ys.zip ds)) ∧
    (∃ l : List ℝ, l ≠ [] ∧ rmean l ≠ specGlobalRMS l) := by
  refine ⟨?_, collectErrors_spec _ _ _ _ _ _ _ h, ⟨[(1 : ℝ), 7], by simp, ?_⟩⟩
  · have hie : ds.isEmpty = false := by
      cases ds with
      | nil => exact absurd rfl hne
      | cons a t => rfl
    exact evalCollection_eq K D c xs ys ds h hie
  · have h1 : rmean [(1 : ℝ), 7] = 4 := by
      simp [rmean]
      norm_num
    have h2 : specGlobalRMS [(1 : ℝ), 7] = 5 := by
      rw [specGlobalRMS]
      have hm : rmean ([(1 : ℝ), 7].map (fun d => d ^ 2)) = 25 := by
        simp [rmean]
        norm_num
      rw [hm, show (25 : ℝ) = 5 ^ 2 by norm_num, Real.sqrt_sq (by norm_num)]
    rw [h1, h2]
    norm_num

/-- Closed instance of `per_collection_stats_are_means`: identity intrinsics, no
distortion, one camera-frame point (1,0,1) projecting to pixel (1,0), one
reference point (0,0). -/
theorem per_collection_stats_are_means_witness :
    evalCollection ⟨1, 1, 0, 0⟩ ⟨0, 0, 0, 0, 0⟩
        ⟨fun _ => true, [((1 : ℚ), 0, 1)], 100, 100, 100, 100, [[((0 : ℚ), (0 : ℚ))]]⟩ =
      some (some ⟨((qmean [1] : ℚ) : ℝ), ((qmean [0] : ℚ) : ℝ), rmean [(1 : ℝ)]⟩) ∧
    List.Forall₂ (fun (p : Pt) (t : ℚ × ℚ × ℝ) =>
        MatchedRecord [[((0 : ℚ), (0 : ℚ))]] p t.1 t.2.1 t.2.2)
      ((rangeToImage ⟨1, 1, 0, 0⟩ ⟨0, 0, 0, 0, 0⟩ 100 100 [((1 : ℚ), 0, 1)]).filter
        (fun p => !(decide (p.1 > (100 : ℚ) ∨ p.1 < 0 ∨ p.2 > (100 : ℚ) ∨ p.2 < 0))))
      ([(1 : ℚ)].zip ([(0 : ℚ)].zip [(1 : ℝ)])) ∧
    (∃ l : List ℝ, l ≠ [] ∧ rmean l ≠ specGlobalRMS l) := by
  have hproj : rangeToImage ⟨1, 1, 0, 0⟩ ⟨0, 0, 0, 0, 0⟩ 100 100 [((1 : ℚ), 0, 1)] =
      [((1 : ℚ), (0 : ℚ))] := by
    norm_num [rangeToImage, projectToCamera, projectPoint]
  have hed : edist ((1 : ℚ), (0 : ℚ)) ((0 : ℚ), (0 : ℚ)) = 1 := by
    exact_mod_cast edist_eq_of_sq _ _ 1 (by norm_num) (by norm_num [dist2])
  have h : collectErrors (100 : ℚ) (100 : ℚ) [[((0 : ℚ), (0 : ℚ))]]
      (rangeToImage ⟨1, 1, 0, 0⟩ ⟨0, 0, 0, 0, 0⟩ 100 100 [((1 : ℚ), 0, 1)]) =
      some ([1], [0], [(1 : ℝ)]) := by
    rw [hproj, collectErrors_single 100 100 ((1 : ℚ), (0 : ℚ)) ((0 : ℚ), (0 : ℚ))
      (by norm_num) (by rw [hed]; exact lt_floatMax_of_le_million _ (by norm_num))]
    rw [hed]
    norm_num
  exact per_collection_stats_are_means ⟨1, 1, 0, 0⟩ ⟨0, 0, 0, 0, 0⟩
    ⟨fun _ => true, [((1 : ℚ), 0, 1)], 100, 100, 100, 100, [[((0 : ℚ), (0 : ℚ))]]⟩
    [1] [0] [(1 : ℝ)] h (by simp)

/-! ## Behind-camera points (C3) and empty reference sets (C4) -/

/-- C3 evidence.  The camera-frame point (0,0,-1) has negative depth, yet its
pinhole projection (0,0) lies inside the 100×100 image: because `rangeToImage`
discards the validity mask of `projectToCamera`, the point enters the matching
and contributes a full error record (matched to (3,4) at distance 5).  The claim
that no behind-camera point ever appears in the valid-projection output used
downstream is violated by the code. -/
theorem behind_camera_point_is_matched :
    ((-1 : ℚ) < 0) ∧
    rangeToImage ⟨1, 1, 0, 0⟩ ⟨0, 0, 0, 0, 0⟩ 100 100 [((0 : ℚ), 0, -1)] =
      [((0 : ℚ), (0 : ℚ))] ∧
    evalCollection ⟨1, 1, 0, 0⟩ ⟨0, 0, 0, 0, 0⟩
        ⟨fun _ => true, [((0 : ℚ), 0, -1)], 100, 100, 100, 100, [[((3 : ℚ), (4 : ℚ))]]⟩ =
      some (some ⟨3, 4, 5⟩) := by
  have hproj : rangeToImage ⟨1, 1, 0, 0⟩ ⟨0, 0, 0, 0, 0⟩ 100 100 [((0 : ℚ), 0, -1)] =
      [((0 : ℚ), (0 : ℚ))] := by
    norm_num [rangeToImage, projectToCamera, projectPoint]
  have hed : edist ((0 : ℚ), (0 : ℚ)) ((3 : ℚ), (4 : ℚ)) = 5 := by
    exact_mod_cast edist_eq_of_sq _ _ 5 (by norm_num) (by norm_num [dist2])
  refine ⟨by norm_num, hproj, ?_⟩
  have h : collectErrors (100 : ℚ) (100 : ℚ) [[((3 : ℚ), (4 : ℚ))]]
      (rangeToImage ⟨1, 1, 0, 0⟩ ⟨0, 0, 0, 0, 0⟩ 100 100 [((0 : ℚ), 0, -1)]) =
      some ([3], [4], [(5 : ℝ)]) := by
    rw [hproj, collectErrors_single 100 100 ((0 : ℚ), (0 : ℚ)) ((3 : ℚ), (4 : ℚ))
      (by norm_num) (by rw [hed]; exact lt_floatMax_of_le_million _ (by norm_num))]
    rw [hed]
    norm_num
  have := evalCollection_eq ⟨1, 1, 0, 0⟩ ⟨0, 0, 0, 0, 0⟩
    ⟨fun _ => true, [((0 : ℚ), 0, -1)], 100, 100, 100, 100, [[((3 : ℚ), (4 : ℚ))]]⟩
    [3] [4] [(5 : ℝ)] h rfl
  rw [this]
  norm_num [qmean, rmean]

/-- C4 evidence.  A collection with an empty ground-truth reference set and one
in-bounds projected point: `min_error` never updates, `x_min` stays `None`, and
the evaluation crashes (`TypeError` at the record append) instead of recording
nothing — `none` models the uncaught exception. -/
theorem empty_reference_set_crashes :
    evalCollection ⟨1, 1, 0, 0⟩ ⟨0, 0, 0, 0, 0⟩
        ⟨fun _ => true, [((1 : ℚ), 0, 1)], 100, 100, 100, 100, []⟩ = none := by
  have hproj : rangeToImage ⟨1, 1, 0, 0⟩ ⟨0, 0, 0, 0, 0⟩ 100 100 [((1 : ℚ), 0, 1)] =
      [((1 : ℚ), (0 : ℚ))] := by
    norm_num [rangeToImage, projectToCamera, projectPoint]
  have h : collectErrors (100 : ℚ) (100 : ℚ) ([] : List (List Pt))
      (rangeToImage ⟨1, 1, 0, 0⟩ ⟨0, 0, 0, 0, 0⟩ 100 100 [((1 : ℚ), 0, 1)]) = none := by
    rw [hproj]
    simp only [collectErrors,
      processPoint_no_refs 100 100 [] ((1 : ℚ), (0 : ℚ)) (by norm_num) rfl]
  exact evalCollection_crash _ _ _ h

/-! ## Image-bounds filtering (C8) -/

/-- C8.  A projected point whose coordinates leave the closed box
[0, W] × [0, H] is skipped by the bounds check: it contributes no error record,
the skip is non-fatal, and the records of the remaining points (before or after
it) are exactly those computed without the point. -/
theorem out_of_bounds_point_excluded (W H : ℚ) (sides : List (List Pt)) (p : Pt)
    (pts : List Pt)
    (hout : ¬(0 ≤ p.1 ∧ p.1 ≤ W ∧ 0 ≤ p.2 ∧ p.2 ≤ H)) :
    processPoint W H sides p = PointOutcome.skipped ∧
    ∀ pre : List Pt,
      collectErrors W H sides (pre ++ p :: pts) = collectErrors W H sides (pre ++ pts) := by
  have hcond : p.1 > W ∨ p.1 < 0 ∨ p.2 > H ∨ p.2 < 0 := by
    by_contra hc
    push_neg at hc
    exact hout ⟨hc.2.1, hc.1, hc.2.2.2, hc.2.2.1⟩
  refine ⟨(processPoint_skipped_iff W H sides p).mpr hcond, ?_⟩
  intro pre
  induction pre with
  | nil => exact collectErrors_cons_out W H sides p pts hcond
  | cons q pre ih =>
    cases hq : processPoint W H sides q with
    | skipped =>
      simp only [List.cons_append, collectErrors, hq]
      exact ih
    | crash =>
      simp only [List.cons_append, collectErrors, hq]
    | matched xe ye d =>
      simp only [List.cons_append, collectErrors, hq]
      exact congrArg (Option.map _) ih

/-- Closed instance of `out_of_bounds_point_excluded`: the point (150, 50) is
outside a 100×100 image and is dropped without touching the record of the
in-bounds point (1, 0). -/
theorem out_of_bounds_point_excluded_witness :
    processPoint 100 100 [[((0 : ℚ), (0 : ℚ))]] ((150 : ℚ), (50 : ℚ)) =
      PointOutcome.skipped ∧
    ∀ pre : List Pt,
      collectErrors 100 100 [[((0 : ℚ), (0 : ℚ))]]
          (pre ++ ((150 : ℚ), (50 : ℚ)) :: [((1 : ℚ), (0 : ℚ))]) =
        collectErrors 100 100 [[((0 : ℚ), (0 : ℚ))]] (pre ++ [((1 : ℚ), (0 : ℚ))]) :=
  out_of_bounds_point_excluded 100 100 [[((0 : ℚ), (0 : ℚ))]] ((150 : ℚ), (50 : ℚ))
    [((1 : ℚ), (0 : ℚ))] (by norm_num)

/-! ## Orchestrator lemmas -/

lemma forall₂_mem_right {α β : Type} {R : α → β → Prop} :
    ∀ {l1 : List α} {l2 : List β}, List.Forall₂ R l1 l2 →
      ∀ y ∈ l2, ∃ x ∈ l1, R x y := by
  intro l1 l2 h
  induction h with
  | nil => intro y hy; exact absurd hy (by simp)
  | cons hr _ ih =>
    intro y hy
    rcases List.mem_cons.mp hy with hy | hy
    · subst hy; exact ⟨_, List.mem_cons_self _ _, hr⟩
    · rcases ih y hy with ⟨x, hx, hxy⟩
      exact ⟨x, List.mem_cons_of_mem _ hx, hxy⟩

lemma evalAll_entries (K : Intrin) (D : Dist) :
    ∀ (colls : List (ℕ × Collection)) (e : List (ℕ × Option CollStats)),
      evalAll K D colls = some e →
      List.Forall₂ (fun (kc : ℕ × Collection) (ke : ℕ × Option CollStats) =>
        ke.1 = kc.1 ∧ evalCollection K D kc.2 = some ke.2) colls e := by
  intro colls
  induction colls with
  | nil =>
    intro e h
    simp only [evalAll, Option.some.injEq] at h
    subst h
    constructor
  | cons c cs ih =>
    intro e h
    simp only [evalAll] at h
    rcases Option.bind_eq_some.mp h with ⟨s, hs, hmap⟩
    rcases Option.map_eq_some'.mp hmap with ⟨e', he', heq⟩
    subst heq
    exact List.Forall₂.cons ⟨rfl, hs⟩ (ih e' he')

lemma forall₂_map_fst {α β : Type} {R : (ℕ × α) → (ℕ × β) → Prop}
    (hR : ∀ a b, R a b → b.1 = a.1) :
    ∀ {l1 : List (ℕ × α)} {l2 : List (ℕ × β)}, List.Forall₂ R l1 l2 →
      l2.map Prod.fst = l1.map Prod.fst := by
  intro l1 l2 h
  induction h with
  | nil => rfl
  | cons hr _ ih => simp [ih, hR _ _ hr]

lemma evalAll_keys (K : Intrin) (D : Dist)
    (colls : List (ℕ × Collection)) (e : List (ℕ × Option CollStats))
    (h : evalAll K D colls = some e) : e.map Prod.fst = colls.map Prod.fst :=
  forall₂_map_fst (fun _ _ hr => hr.1) (evalAll_entries K D colls e h)

lemma buildRows_spec :
    ∀ (e : List (ℕ × Option CollStats)) (rows : List (ℕ × ℝ × ℝ × ℝ)),
      buildRows e = some rows →
      List.Forall₂ (fun (ke : ℕ × Option CollStats) (row : ℕ × ℝ × ℝ × ℝ) =>
        row.1 = ke.1 ∧ ∃ s, ke.2 = some s ∧
          row.2 = (round4 s.rms, round4 s.x, round4 s.y)) e rows := by
  intro e
  induction e with
  | nil =>
    intro rows h
    simp only [buildRows, Option.some.injEq] at h
    subst h
    constructor
  | cons ke e ih =>
    intro rows h
    rcases ke with ⟨k, so⟩
    cases so with
    | none => exact absurd h (by simp [buildRows])
    | some s =>
      simp only [buildRows] at h
      rcases Option.map_eq_some'.mp h with ⟨rows', hr', heq⟩
      subst heq
      exact List.Forall₂.cons ⟨rfl, s, rfl, rfl⟩ (ih rows' hr')

lemma buildRows_keys (e : List (ℕ × Option CollStats)) (rows : List (ℕ × ℝ × ℝ × ℝ))
    (h : buildRows e = some rows) : rows.map Prod.fst = e.map Prod.fst :=
  forall₂_map_fst (fun _ _ hr => hr.1) (buildRows_spec e rows h)

lemma mem_insertByKey {α : Type} (x y : ℕ × α) :
    ∀ l : List (ℕ × α), y ∈ insertByKey x l ↔ y = x ∨ y ∈ l := by
  intro l
  induction l with
  | nil => simp [insertByKey]
  | cons z zs ih =>
    simp only [insertByKey]
    by_cases h : x.1 ≤ z.1
    · rw [if_pos h]; simp
    · rw [if_neg h]
      simp only [List.mem_cons, ih]
      tauto

lemma mem_sortByKey {α : Type} (y : ℕ × α) :
    ∀ l : List (ℕ × α), y ∈ sortByKey l ↔ y ∈ l := by
  intro l
  induction l with
  | nil => simp [sortByKey]
  | cons x xs ih =>
    simp only [sortByKey, mem_insertByKey, ih, List.mem_cons]

lemma key_unique {α : Type} :
    ∀ (l : List (ℕ × α)) (k : ℕ) (a b : α), (l.map Prod.fst).Nodup →
      (k, a) ∈ l → (k, b) ∈ l → a = b := by
  intro l
  induction l with
  | nil => intro k a b _ ha; exact absurd ha (by simp)
  | cons x xs ih =>
    intro k a b hnd ha hb
    rcases List.mem_cons.mp ha with ha | ha <;> rcases List.mem_cons.mp hb with hb | hb
    · rw [← ha] at hb; exact (Prod.mk.injEq .. ▸ hb).2.symm
    · exfalso
      have : k ∈ xs.map Prod.fst := by
        exact List.mem_map.mpr ⟨(k, b), hb, by simp⟩
      rw [← ha] at hnd
      simp at hnd
      exact absurd this (by simpa using hnd.1)
    · exfalso
      have : k ∈ xs.map Prod.fst := by
        exact List.mem_map.mpr ⟨(k, a), ha, by simp⟩
      rw [← hb] at hnd
      simp at hnd
      exact absurd this (by simpa using hnd.1)
    · exact ih k a b (by simpa using (List.nodup_cons.mp (by simpa using hnd)).2) ha hb

lemma evalCollection_some_some (K : Intrin) (D : Dist) (c : Collection) (s : CollStats)
    (h : evalCollection K D c = some (some s)) :
    ∃ (xs ys : List ℚ) (ds : List ℝ),
      collectErrors c.imgW c.imgH c.sides
        (rangeToImage K D c.declW c.declH c.ptsCam) = some (xs, ys, ds) ∧
      ds ≠ [] ∧
      s = ⟨((qmean xs : ℚ) : ℝ), ((qmean ys : ℚ) : ℝ), rmean ds⟩ := by
  rw [evalCollection] at h
  rcases Option.map_eq_some'.mp h with ⟨⟨xs, ys, ds⟩, hc, hg⟩
  by_cases hd : ds.isEmpty
  · rw [if_pos hd] at hg
    exact absurd hg (by simp)
  · rw [if_neg hd] at hg
    refine ⟨xs, ys, ds, hc, ?_, (Option.some.inj hg).symm⟩
    simpa [List.isEmpty_iff] using hd

lemma collectErrors_nil (W H : ℚ) (sides : List (List Pt)) :
    collectErrors W H sides [] = some ([], [], []) := by
  simp [collectErrors]

lemma evalAll_nil (K : Intrin) (D : Dist) : evalAll K D [] = some [] := rfl

lemma evalAll_cons (K : Intrin) (D : Dist) (k : ℕ) (c : Collection)
    (cs : List (ℕ × Collection)) :
    evalAll K D ((k, c) :: cs) =
      (evalCollection K D c).bind (fun s =>
        (evalAll K D cs).map (fun e => (k, s) :: e)) := rfl

/-! ## Dataset pre-filtering (C7) -/

lemma shouldDelete_of_undetected (sensors : List String) (rs cs : String)
    (labels : String → Bool) (hrs : rs ∈ sensors) (hcs : cs ∈ sensors)
    (hdet : ¬(labels rs = true ∧ labels cs = true)) :
    shouldDelete sensors rs cs labels = true := by
  rw [shouldDelete, List.any_eq_true]
  by_cases h1 : labels rs = true
  · have h2 : labels cs = false := by
      cases hc2 : labels cs
      · rfl
      · exact absurd ⟨h1, hc2⟩ hdet
    exact ⟨cs, hcs, by simp [h2]⟩
  · have h1f : labels rs = false := by
      cases hr2 : labels rs
      · rfl
      · exact absurd hr2 h1
    exact ⟨rs, hrs, by simp [h1f]⟩

/-- C7.  A collection of the test dataset in which the calibration pattern was
not detected by the range sensor under test or by the camera sensor under test is
deleted by the pre-filter: its key appears neither in the (sorted) iteration set
the evaluation loop walks, nor among the rows of any final report, and this
removal happens on the dataset itself before any projection or matching runs
(`runEvaluation` evaluates only `sortByKey (filterCollections ...)`). -/
theorem undetected_collection_removed (sensors : List String) (rs cs : String)
    (K : Intrin) (D : Dist) (colls : List (ℕ × Collection)) (k : ℕ) (c : Collection)
    (hmem : (k, c) ∈ colls) (hnd : (colls.map Prod.fst).Nodup)
    (hrs : rs ∈ sensors) (hcs : cs ∈ sensors)
    (hdet : ¬(c.labels rs = true ∧ c.labels cs = true)) :
    k ∉ (sortByKey (filterCollections sensors rs cs colls)).map Prod.fst ∧
    ∀ rows bottom, runEvaluation sensors rs cs K D colls = some (rows, bottom) →
      k ∉ rows.map Prod.fst := by
  have hdel := shouldDelete_of_undetected sensors rs cs c.labels hrs hcs hdet
  have hkey : k ∉ (filterCollections sensors rs cs colls).map Prod.fst := by
    intro hk
    rcases List.mem_map.mp hk with ⟨⟨k', c'⟩, hmem', hfst⟩
    have hk' : k' = k := hfst
    subst hk'
    have hc'in : (k', c') ∈ colls := List.mem_of_mem_filter hmem'
    have hcc : c' = c := key_unique colls k' c' c hnd hc'in hmem
    subst hcc
    have hpass := List.of_mem_filter hmem'
    rw [hdel] at hpass
    exact absurd hpass (by simp)
  have hsortkey : k ∉ (sortByKey (filterCollections sensors rs cs colls)).map Prod.fst := by
    intro hk
    rcases List.mem_map.mp hk with ⟨y, hy, hfst⟩
    exact hkey (List.mem_map.mpr ⟨y, (mem_sortByKey y _).mp hy, hfst⟩)
  refine ⟨hsortkey, ?_⟩
  intro rows bottom h
  simp only [runEvaluation] at h
  rcases Option.bind_eq_some.mp h with ⟨e, he, hmap⟩
  rcases Option.map_eq_some'.mp hmap with ⟨rows', hrows', heq⟩
  have hrw : rows' = rows := congrArg Prod.fst heq
  subst hrw
  intro hk
  rw [buildRows_keys e rows' hrows', evalAll_keys K D _ e he] at hk
  exact hsortkey hk

/-- Closed instance of `undetected_collection_removed`: collection 0's pattern is
not detected by the lidar under test, collection 1 detects everything. -/
theorem undetected_collection_removed_witness :
    (0 : ℕ) ∉ (sortByKey (filterCollections ["cam", "lidar"] "lidar" "cam"
      [(0, ⟨fun s => s == "cam", [((1 : ℚ), 0, 1)], 100, 100, 100, 100,
        [[((0 : ℚ), (0 : ℚ))]]⟩),
       (1, ⟨fun _ => true, [((1 : ℚ), 0, 1)], 100, 100, 100, 100,
        [[((0 : ℚ), (0 : ℚ))]]⟩)])).map Prod.fst ∧
    ∀ rows bottom, runEvaluation ["cam", "lidar"] "lidar" "cam" idK noDist
      [(0, ⟨fun s => s == "cam", [((1 : ℚ), 0, 1)], 100, 100, 100, 100,
        [[((0 : ℚ), (0 : ℚ))]]⟩),
       (1, ⟨fun _ => true, [((1 : ℚ), 0, 1)], 100, 100, 100, 100,
        [[((0 : ℚ), (0 : ℚ))]]⟩)] = some (rows, bottom) →
      (0 : ℕ) ∉ rows.map Prod.fst := by
  refine undetected_collection_removed ["cam", "lidar"] "lidar" "cam" idK noDist
    [(0, ⟨fun s => s == "cam", [((1 : ℚ), 0, 1)], 100, 100, 100, 100,
      [[((0 : ℚ), (0 : ℚ))]]⟩),
     (1, ⟨fun _ => true, [((1 : ℚ), 0, 1)], 100, 100, 100, 100,
      [[((0 : ℚ), (0 : ℚ))]]⟩)] 0
    ⟨fun s => s == "cam", [((1 : ℚ), 0, 1)], 100, 100, 100, 100, [[((0 : ℚ), (0 : ℚ))]]⟩
    (by simp) (by simp) (by simp) (by simp) ?_
  intro hc
  simpa using hc.1

/-! ## Image-bounds source (C10) -/

lemma rangeToImage_eq_map (K : Intrin) (D : Dist) (w h : ℚ) (pts : List Pt3) :
    rangeToImage K D w h pts = pts.map (projectPoint K D) := rfl

/-- C10.  The image-bounds filter compares projected coordinates against the
dimensions of the image loaded from disk (`image.shape`), not against the
dataset-declared width/height that were handed to the projection: changing the
declared dimensions changes nothing, while with identical declared dimensions
(100×100) the point projected to (75,0) is kept by a 100×100 stored image and
discarded by a 50×50 stored image. -/
theorem bounds_checked_against_loaded_image (K : Intrin) (D : Dist) (c : Collection)
    (w h : ℚ) :
    evalCollection K D { c with declW := w, declH := h } = evalCollection K D c ∧
    evalCollection idK noDist
        ⟨fun _ => true, [((75 : ℚ), 0, 1)], 100, 100, 100, 100, [[((0 : ℚ), (0 : ℚ))]]⟩ =
      some (some ⟨75, 0, 75⟩) ∧
    evalCollection idK noDist
        ⟨fun _ => true, [((75 : ℚ), 0, 1)], 100, 100, 50, 50, [[((0 : ℚ), (0 : ℚ))]]⟩ =
      some none := by
  refine ⟨rfl, ?_, ?_⟩
  · have hproj : rangeToImage idK noDist 100 100 [((75 : ℚ), 0, 1)] =
        [((75 : ℚ), (0 : ℚ))] := by
      norm_num [rangeToImage, projectToCamera, projectPoint, idK, noDist]
    have hed : edist ((75 : ℚ), (0 : ℚ)) ((0 : ℚ), (0 : ℚ)) = 75 := by
      exact_mod_cast edist_eq_of_sq _ _ 75 (by norm_num) (by norm_num [dist2])
    have hc : collectErrors (100 : ℚ) (100 : ℚ) [[((0 : ℚ), (0 : ℚ))]]
        (rangeToImage idK noDist 100 100 [((75 : ℚ), 0, 1)]) =
        some ([75], [0], [(75 : ℝ)]) := by
      rw [hproj, collectErrors_single 100 100 ((75 : ℚ), (0 : ℚ)) ((0 : ℚ), (0 : ℚ))
        (by norm_num) (by rw [hed]; exact lt_floatMax_of_le_million _ (by norm_num))]
      rw [hed]
      norm_num
    have := evalCollection_eq idK noDist
      ⟨fun _ => true, [((75 : ℚ), 0, 1)], 100, 100, 100, 100, [[((0 : ℚ), (0 : ℚ))]]⟩
      [75] [0] [(75 : ℝ)] hc rfl
    rw [this]
    norm_num [qmean, rmean]
  · have hproj : rangeToImage idK noDist 100 100 [((75 : ℚ), 0, 1)] =
        [((75 : ℚ), (0 : ℚ))] := by
      norm_num [rangeToImage, projectToCamera, projectPoint, idK, noDist]
    have hc : collectErrors (50 : ℚ) (50 : ℚ) [[((0 : ℚ), (0 : ℚ))]]
        (rangeToImage idK noDist 100 100 [((75 : ℚ), 0, 1)]) = some ([], [], []) := by
      rw [hproj, collectErrors_cons_out 50 50 [[((0 : ℚ), (0 : ℚ))]]
        ((75 : ℚ), (0 : ℚ)) [] (by norm_num), collectErrors_nil]
    exact evalCollection_skip idK noDist
      ⟨fun _ => true, [((75 : ℚ), 0, 1)], 100, 100, 50, 50, [[((0 : ℚ), (0 : ℚ))]]⟩
      [] [] hc

/-! ## The Averages row (C1) and the skipped-collection crash (C2) -/

lemma round4_intCast (n : ℤ) : round4 ((n : ℝ)) = (n : ℝ) := by
  rw [round4, show ((n : ℝ) * 10000) = (((n * 10000 : ℤ)) : ℝ) by push_cast; ring,
    round_intCast]
  push_cast
  exact mul_div_cancel_right₀ _ (by norm_num)

lemma round4_one : round4 (1 : ℝ) = 1 := by simpa using round4_intCast 1

lemma round4_seven : round4 (7 : ℝ) = 7 := by simpa using round4_intCast 7

lemma round4_zero : round4 (0 : ℝ) = 0 := by simpa using round4_intCast 0

/-- Per-collection evaluation of a collection holding one camera-frame point
(a, 0, 1) (projecting to pixel (a, 0), inside the 100×100 image for 0 ≤ a ≤ 100)
and the single reference point (0,0). -/
lemma evalCollection_axis_point (a : ℚ) (ha0 : 0 ≤ a) (ha : a ≤ 100) :
    collectErrors (100 : ℚ) (100 : ℚ) [[((0 : ℚ), (0 : ℚ))]]
      (rangeToImage idK noDist 100 100 [((a : ℚ), 0, 1)]) =
      some ([a], [0], [((a : ℚ) : ℝ)]) ∧
    evalCollection idK noDist
        ⟨fun _ => true, [((a : ℚ), 0, 1)], 100, 100, 100, 100, [[((0 : ℚ), (0 : ℚ))]]⟩ =
      some (some ⟨((a : ℚ) : ℝ), 0, ((a : ℚ) : ℝ)⟩) := by
  have hproj : rangeToImage idK noDist 100 100 [((a : ℚ), 0, 1)] =
      [((a : ℚ), (0 : ℚ))] := by
    norm_num [rangeToImage, projectToCamera, projectPoint, idK, noDist]
  have hed : edist ((a : ℚ), (0 : ℚ)) ((0 : ℚ), (0 : ℚ)) = ((a : ℚ) : ℝ) := by
    refine edist_eq_of_sq _ _ a ha0 ?_
    norm_num [dist2]
  have hcap : edist ((a : ℚ), (0 : ℚ)) ((0 : ℚ), (0 : ℚ)) < floatMax := by
    rw [hed]
    refine lt_floatMax_of_le_million _ ?_
    have : ((a : ℚ) : ℝ) ≤ ((100 : ℚ) : ℝ) := by exact_mod_cast ha
    refine le_trans this (by norm_num)
  have hc : collectErrors (100 : ℚ) (100 : ℚ) [[((0 : ℚ), (0 : ℚ))]]
      (rangeToImage idK noDist 100 100 [((a : ℚ), 0, 1)]) =
      some ([a], [0], [((a : ℚ) : ℝ)]) := by
    rw [hproj, collectErrors_single 100 100 ((a : ℚ), (0 : ℚ)) ((0 : ℚ), (0 : ℚ))
      (by push_neg; exact ⟨ha, ha0, by norm_num, by norm_num⟩) hcap]
    rw [hed]
    congr 2
    · simp [abs_of_nonneg ha0]
    · norm_num
  refine ⟨hc, ?_⟩
  have := evalCollection_eq idK noDist
    ⟨fun _ => true, [((a : ℚ), 0, 1)], 100, 100, 100, 100, [[((0 : ℚ), (0 : ℚ))]]⟩
    [a] [0] [((a : ℚ) : ℝ)] hc rfl
  rw [this]
  simp [qmean, rmean]

/-- The sorted, filtered iteration set for two all-detected collections keyed 0
and 1 is the list itself. -/
lemma kept_two_collections (cA cB : Collection)
    (hA : ∀ s, cA.labels s = true) (hB : ∀ s, cB.labels s = true) :
    sortByKey (filterCollections ["cam", "lidar"] "lidar" "cam" [(0, cA), (1, cB)]) =
      [(0, cA), (1, cB)] := by
  have hfa : shouldDelete ["cam", "lidar"] "lidar" "cam" cA.labels = false := by
    simp [shouldDelete, hA]
  have hfb : shouldDelete ["cam", "lidar"] "lidar" "cam" cB.labels = false := by
    simp [shouldDelete, hB]
  rw [filterCollections]
  rw [List.filter_cons_of_pos (by simp [hfa]), List.filter_cons_of_pos (by simp [hfb]),
    List.filter_nil]
  simp [sortByKey, insertByKey]

/-- C2 evidence.  Collection 0 projects its only point to (200, 0), outside the
100×100 image: the evaluation loop records no entry for it (`some none`, after the
diagnostic of source line 226) and it contributes nothing; but the table loop then
reads `e['0']['rms']` for that very collection and raises `KeyError`, so no report
is produced at all — the run ends in an uncaught exception instead of a table for
the remaining collections. -/
theorem skipped_collection_crashes_report :
    evalCollection idK noDist
        ⟨fun _ => true, [((200 : ℚ), 0, 1)], 100, 100, 100, 100, [[((0 : ℚ), (0 : ℚ))]]⟩ =
      some none ∧
    runEvaluation ["cam", "lidar"] "lidar" "cam" idK noDist
      [(0, ⟨fun _ => true, [((200 : ℚ), 0, 1)], 100, 100, 100, 100,
        [[((0 : ℚ), (0 : ℚ))]]⟩),
       (1, ⟨fun _ => true, [((1 : ℚ), 0, 1)], 100, 100, 100, 100,
        [[((0 : ℚ), (0 : ℚ))]]⟩)] = none := by
  have hproj : rangeToImage idK noDist 100 100 [((200 : ℚ), 0, 1)] =
      [((200 : ℚ), (0 : ℚ))] := by
    norm_num [rangeToImage, projectToCamera, projectPoint, idK, noDist]
  have hcOut : collectErrors (100 : ℚ) (100 : ℚ) [[((0 : ℚ), (0 : ℚ))]]
      (rangeToImage idK noDist 100 100 [((200 : ℚ), 0, 1)]) = some ([], [], []) := by
    rw [hproj, collectErrors_cons_out 100 100 [[((0 : ℚ), (0 : ℚ))]]
      ((200 : ℚ), (0 : ℚ)) [] (by norm_num), collectErrors_nil]
  have hskip : evalCollection idK noDist
      ⟨fun _ => true, [((200 : ℚ), 0, 1)], 100, 100, 100, 100, [[((0 : ℚ), (0 : ℚ))]]⟩ =
      some none :=
    evalCollection_skip idK noDist _ [] [] hcOut
  have hin := (evalCollection_axis_point 1 (by norm_num) (by norm_num)).2
  refine ⟨hskip, ?_⟩
  have hkept := kept_two_collections
    ⟨fun _ => true, [((200 : ℚ), 0, 1)], 100, 100, 100, 100, [[((0 : ℚ), (0 : ℚ))]]⟩
    ⟨fun _ => true, [((1 : ℚ), 0, 1)], 100, 100, 100, 100, [[((0 : ℚ), (0 : ℚ))]]⟩
    (fun _ => rfl) (fun _ => rfl)
  simp only [runEvaluation, hkept]
  have he : evalAll idK noDist
      [(0, ⟨fun _ => true, [((200 : ℚ), 0, 1)], 100, 100, 100, 100,
        [[((0 : ℚ), (0 : ℚ))]]⟩),
       (1, ⟨fun _ => true, [((1 : ℚ), 0, 1)], 100, 100, 100, 100,
        [[((0 : ℚ), (0 : ℚ))]]⟩)] =
      some [(0, none), (1, some ⟨((1 : ℚ) : ℝ), 0, ((1 : ℚ) : ℝ)⟩)] := by
    rw [evalAll_cons, hskip, Option.some_bind, evalAll_cons, hin, Option.some_bind,
      evalAll_nil, Option.map_some', Option.map_some']
  rw [he, Option.some_bind]
  simp [buildRows]

/-- The complete concrete run behind the C1 analysis: two surviving collections
whose matched-distance lists are [1] and [7]; the table rows carry the
per-collection means 1 and 7, and the Averages row carries (1+7)/2 = 4 in every
error column computed from the rows. -/
lemma averages_run_concrete :
    runEvaluation ["cam", "lidar"] "lidar" "cam" idK noDist
      [(0, ⟨fun _ => true, [((1 : ℚ), 0, 1)], 100, 100, 100, 100,
        [[((0 : ℚ), (0 : ℚ))]]⟩),
       (1, ⟨fun _ => true, [((7 : ℚ), 0, 1)], 100, 100, 100, 100,
        [[((0 : ℚ), (0 : ℚ))]]⟩)] =
      some ([(0, 1, 1, 0), (1, 7, 7, 0)], (4, 4, 0)) := by
  have hA := (evalCollection_axis_point 1 (by norm_num) (by norm_num)).2
  have hB := (evalCollection_axis_point 7 (by norm_num) (by norm_num)).2
  have hkept := kept_two_collections
    ⟨fun _ => true, [((1 : ℚ), 0, 1)], 100, 100, 100, 100, [[((0 : ℚ), (0 : ℚ))]]⟩
    ⟨fun _ => true, [((7 : ℚ), 0, 1)], 100, 100, 100, 100, [[((0 : ℚ), (0 : ℚ))]]⟩
    (fun _ => rfl) (fun _ => rfl)
  simp only [runEvaluation, hkept]
  have he : evalAll idK noDist
      [(0, ⟨fun _ => true, [((1 : ℚ), 0, 1)], 100, 100, 100, 100,
        [[((0 : ℚ), (0 : ℚ))]]⟩),
       (1, ⟨fun _ => true, [((7 : ℚ), 0, 1)], 100, 100, 100, 100,
        [[((0 : ℚ), (0 : ℚ))]]⟩)] =
      some [(0, some ⟨((1 : ℚ) : ℝ), 0, ((1 : ℚ) : ℝ)⟩),
            (1, some ⟨((7 : ℚ) : ℝ), 0, ((7 : ℚ) : ℝ)⟩)] := by
    rw [evalAll_cons, hA, Option.some_bind, evalAll_cons, hB, Option.some_bind,
      evalAll_nil, Option.map_some', Option.map_some']
  rw [he, Option.some_bind]
  have hrows : buildRows [(0, some ⟨((1 : ℚ) : ℝ), 0, ((1 : ℚ) : ℝ)⟩),
      (1, some ⟨((7 : ℚ) : ℝ), 0, ((7 : ℚ) : ℝ)⟩)] =
      some [(0, 1, 1, 0), (1, 7, 7, 0)] := by
    have c1 : ((1 : ℚ) : ℝ) = 1 := by norm_num
    have c7 : ((7 : ℚ) : ℝ) = 7 := by norm_num
    simp [buildRows, c1, c7, round4_one, round4_seven, round4_zero]
  rw [hrows, Option.map_some']
  have hbot : bottomRow [((0 : ℕ), (1 : ℝ), (1 : ℝ), (0 : ℝ)), (1, 7, 7, 0)] = (4, 4, 0) := by
    simp [bottomRow, rmean]
    norm_num
  rw [hbot]

/-- C1 fails on the code.  In the concrete run with matched-distance lists [1]
and [7], the code's global "RMS" cell is 4 — the unweighted average of the two
per-collection mean distances — while the true pooled RMS sqrt(mean(distance²))
over the pooled distances [1, 7] is 5. -/
theorem global_rms_not_pooled_counterexample :
    runEvaluation ["cam", "lidar"] "lidar" "cam" idK noDist
      [(0, ⟨fun _ => true, [((1 : ℚ), 0, 1)], 100, 100, 100, 100,
        [[((0 : ℚ), (0 : ℚ))]]⟩),
       (1, ⟨fun _ => true, [((7 : ℚ), 0, 1)], 100, 100, 100, 100,
        [[((0 : ℚ), (0 : ℚ))]]⟩)] =
      some ([(0, 1, 1, 0), (1, 7, 7, 0)], (4, 4, 0)) ∧
    collectErrors (100 : ℚ) (100 : ℚ) [[((0 : ℚ), (0 : ℚ))]]
      (rangeToImage idK noDist 100 100 [((1 : ℚ), 0, 1)]) =
      some ([1], [0], [((1 : ℚ) : ℝ)]) ∧
    collectErrors (100 : ℚ) (100 : ℚ) [[((0 : ℚ), (0 : ℚ))]]
      (rangeToImage idK noDist 100 100 [((7 : ℚ), 0, 1)]) =
      some ([7], [0], [((7 : ℚ) : ℝ)]) ∧
    specGlobalRMS [((1 : ℚ) : ℝ), ((7 : ℚ) : ℝ)] = 5 ∧
    (4 : ℝ) ≠ 5 := by
  refine ⟨averages_run_concrete, (evalCollection_axis_point 1 (by norm_num) (by norm_num)).1,
    (evalCollection_axis_point 7 (by norm_num) (by norm_num)).1, ?_, by norm_num⟩
  have hc : ([((1 : ℚ) : ℝ), ((7 : ℚ) : ℝ)] : List ℝ) = [1, 7] := by norm_num
  rw [hc, specGlobalRMS]
  have hm : rmean ([(1 : ℝ), 7].map (fun d => d ^ 2)) = 25 := by
    simp [rmean]
    norm_num
  rw [hm, show (25 : ℝ) = 5 ^ 2 by norm_num, Real.sqrt_sq (by norm_num)]

/-- C1 amended.  The Averages row is computed from the table rows, not from a
pooled set: each of its error cells is the unweighted arithmetic mean of the
corresponding per-collection cells, and each per-collection "RMS" cell is the
4-decimal rounding of the arithmetic mean of that collection's per-point
distances (so the global "RMS" is the average of per-collection mean distances,
which differs in general from the pooled sqrt(mean(distance²))). -/
theorem averages_row_is_mean_of_rows (sensors : List String) (rs cs : String)
    (K : Intrin) (D : Dist) (colls : List (ℕ × Collection))
    (rows : List (ℕ × ℝ × ℝ × ℝ)) (bottom : ℝ × ℝ × ℝ)
    (h : runEvaluation sensors rs cs K D colls = some (rows, bottom)) :
    bottom = (rmean (rows.map (fun r => r.2.1)), rmean (rows.map (fun r => r.2.2.1)),
      rmean (rows.map (fun r => r.2.2.2))) ∧
    ∀ row ∈ rows, ∃ (k : ℕ) (c : Collection) (xs ys : List ℚ) (ds : List ℝ),
      (k, c) ∈ colls ∧ row.1 = k ∧
      collectErrors c.imgW c.imgH c.sides
        (rangeToImage K D c.declW c.declH c.ptsCam) = some (xs, ys, ds) ∧
      ds ≠ [] ∧
      row.2 = (round4 (rmean ds), round4 ((qmean xs : ℚ)), round4 ((qmean ys : ℚ))) := by
  simp only [runEvaluation] at h
  rcases Option.bind_eq_some.mp h with ⟨e, he, hmap⟩
  rcases Option.map_eq_some'.mp hmap with ⟨rows', hrows', heq⟩
  have hrw : rows' = rows := congrArg Prod.fst heq
  subst hrw
  have hbot : bottom = bottomRow rows' := (congrArg Prod.snd heq).symm
  constructor
  · rw [hbot]; rfl
  · intro row hrow
    obtain ⟨ke, hkemem, hS⟩ := forall₂_mem_right (buildRows_spec e rows' hrows') row hrow
    obtain ⟨kc, hkcmem, hR⟩ := forall₂_mem_right (evalAll_entries K D _ e he) ke hkemem
    obtain ⟨s, hkes, hrow2⟩ := hS.2
    have hev : evalCollection K D kc.2 = some (some s) := by
      rw [hR.2, hkes]
    obtain ⟨xs, ys, ds, hc, hdne, hsval⟩ := evalCollection_some_some K D kc.2 s hev
    refine ⟨kc.1, kc.2, xs, ys, ds, ?_, ?_, hc, hdne, ?_⟩
    · have : kc ∈ filterCollections sensors rs cs colls := (mem_sortByKey kc _).mp hkcmem
      exact List.mem_of_mem_filter this
    · rw [hS.1, hR.1]
    · rw [hrow2, hsval]

/-- Closed instance of `averages_row_is_mean_of_rows` at the concrete run of
`averages_run_concrete`. -/
theorem averages_row_is_mean_of_rows_witness :
    ((4 : ℝ), (4 : ℝ), (0 : ℝ)) =
      (rmean (([((0 : ℕ), (1 : ℝ), (1 : ℝ), (0 : ℝ)), (1, 7, 7, 0)]).map (fun r => r.2.1)),
       rmean (([((0 : ℕ), (1 : ℝ), (1 : ℝ), (0 : ℝ)), (1, 7, 7, 0)]).map (fun r => r.2.2.1)),
       rmean (([((0 : ℕ), (1 : ℝ), (1 : ℝ), (0 : ℝ)), (1, 7, 7, 0)]).map (fun r => r.2.2.2))) ∧
    ∀ row ∈ ([((0 : ℕ), (1 : ℝ), (1 : ℝ), (0 : ℝ)), (1, 7, 7, 0)] : List (ℕ × ℝ × ℝ × ℝ)),
      ∃ (k : ℕ) (c : Collection) (xs ys : List ℚ) (ds : List ℝ),
        (k, c) ∈ [(0, (⟨fun _ => true, [((1 : ℚ), 0, 1)], 100, 100, 100, 100,
            [[((0 : ℚ), (0 : ℚ))]]⟩ : Collection)),
          (1, ⟨fun _ => true, [((7 : ℚ), 0, 1)], 100, 100, 100, 100,
            [[((0 : ℚ), (0 : ℚ))]]⟩)] ∧ row.1 = k ∧
        collectErrors c.imgW c.imgH c.sides
          (rangeToImage idK noDist c.declW c.declH c.ptsCam) = some (xs, ys, ds) ∧
        ds ≠ [] ∧
        row.2 = (round4 (rmean ds), round4 ((qmean xs : ℚ)), round4 ((qmean ys : ℚ))) :=
  averages_row_is_mean_of_rows ["cam", "lidar"] "lidar" "cam" idK noDist
    [(0, ⟨fun _ => true, [((1 : ℚ), 0, 1)], 100, 100, 100, 100, [[((0 : ℚ), (0 : ℚ))]]⟩),
     (1, ⟨fun _ => true, [((7 : ℚ), 0, 1)], 100, 100, 100, 100, [[((0 : ℚ), (0 : ℚ))]]⟩)]
    [(0, 1, 1, 0), (1, 7, 7, 0)] (4, 4, 0) averages_run_concrete

/-! ## Transform grafting lemmas (C9) -/

lemma lookup_map_update (name : String) (qt : TransformQT) :
    ∀ ts : List (String × TransformQT),
      (ts.map (fun nt => if nt.1 = name then (nt.1, qt) else nt)).lookup name =
        (ts.lookup name).map (fun _ => qt) := by
  intro ts
  induction ts with
  | nil => rfl
  | cons nt rest ih =>
    rcases nt with ⟨n, t⟩
    by_cases h : n = name
    · subst h
      simp only [List.map_cons, if_true]
      simp [List.lookup]
    · have hb : (name == n) = false := by simpa using Ne.symm h
      simp only [List.map_cons, if_neg (by simpa using h)]
      simp [List.lookup, hb, ih]

lemma lookup_map_update_ne (name other : String) (hne : other ≠ name) (qt : TransformQT) :
    ∀ ts : List (String × TransformQT),
      (ts.map (fun nt => if nt.1 = name then (nt.1, qt) else nt)).lookup other =
        ts.lookup other := by
  intro ts
  induction ts with
  | nil => rfl
  | cons nt rest ih =>
    rcases nt with ⟨n, t⟩
    by_cases h : n = name
    · subst h
      have hb : (other == n) = false := by simpa using hne
      simp only [List.map_cons, if_true]
      simp [List.lookup, hb, ih]
    · simp only [List.map_cons, if_neg (by simpa using h)]
      by_cases hb : other = n
      · subst hb
        simp [List.lookup]
      · have hbf : (other == n) = false := by simpa using hb
        simp [List.lookup, hbf, ih]

lemma setTransform_some (name : String) (qt : TransformQT)
    (ts ts' : List (String × TransformQT)) (h : setTransform name qt ts = some ts') :
    ts' = ts.map (fun nt => if nt.1 = name then (nt.1, qt) else nt) := by
  rw [setTransform] at h
  by_cases hs : (ts.lookup name).isSome
  · rw [if_pos hs] at h
    exact (Option.some.inj h).symm
  · rw [if_neg hs] at h
    exact absurd h (by simp)

lemma setTransform_isSome (name : String) (qt : TransformQT)
    (ts ts' : List (String × TransformQT)) (h : setTransform name qt ts = some ts') :
    (ts.lookup name).isSome := by
  by_contra hns
  rw [setTransform, if_neg hns] at h
  exact Option.noConfusion h

lemma setAll_lookup (name : String) (qt : TransformQT) :
    ∀ (tcs res : List (ℕ × List (String × TransformQT))),
      setAllCollections name qt tcs = some res →
      ∀ c ∈ res, c.2.lookup name = some qt := by
  intro tcs
  induction tcs with
  | nil =>
    intro res h c hc
    simp only [setAllCollections, Option.some.injEq] at h
    subst h
    exact absurd hc (by simp)
  | cons t ts ih =>
    intro res h c hc
    simp only [setAllCollections] at h
    rcases Option.bind_eq_some.mp h with ⟨ts1, hset, hmap⟩
    rcases Option.map_eq_some'.mp hmap with ⟨rest, hrest, heq⟩
    subst heq
    rcases List.mem_cons.mp hc with hc | hc
    · subst hc
      show ts1.lookup name = some qt
      rw [setTransform_some name qt t.2 ts1 hset, lookup_map_update]
      rcases Option.isSome_iff_exists.mp (setTransform_isSome name qt t.2 ts1 hset) with ⟨v, hv⟩
      rw [hv]
      rfl
    · exact ih rest hrest c hc

lemma setAll_preserve (name : String) (qt : TransformQT) (other : String)
    (v : TransformQT) (hne : other ≠ name) :
    ∀ (tcs res : List (ℕ × List (String × TransformQT))),
      setAllCollections name qt tcs = some res →
      (∀ c ∈ tcs, c.2.lookup other = some v) →
      ∀ c ∈ res, c.2.lookup other = some v := by
  intro tcs
  induction tcs with
  | nil =>
    intro res h _ c hc
    simp only [setAllCollections, Option.some.injEq] at h
    subst h
    exact absurd hc (by simp)
  | cons t ts ih =>
    intro res h hall c hc
    simp only [setAllCollections] at h
    rcases Option.bind_eq_some.mp h with ⟨ts1, hset, hmap⟩
    rcases Option.map_eq_some'.mp hmap with ⟨rest, hrest, heq⟩
    subst heq
    rcases List.mem_cons.mp hc with hc | hc
    · subst hc
      show ts1.lookup other = some v
      rw [setTransform_some name qt t.2 ts1 hset, lookup_map_update_ne name other hne]
      exact hall t (List.mem_cons_self _ _)
    · exact ih rest hrest (fun c hc => hall c (List.mem_cons_of_mem _ hc)) c hc

lemma setAll_keys (name : String) (qt : TransformQT) :
    ∀ (tcs res : List (ℕ × List (String × TransformQT))),
      setAllCollections name qt tcs = some res →
      res.map Prod.fst = tcs.map Prod.fst := by
  intro tcs
  induction tcs with
  | nil =>
    intro res h
    simp only [setAllCollections, Option.some.injEq] at h
    subst h
    rfl
  | cons t ts ih =>
    intro res h
    simp only [setAllCollections] at h
    rcases Option.bind_eq_some.mp h with ⟨ts1, _, hmap⟩
    rcases Option.map_eq_some'.mp hmap with ⟨rest, hrest, heq⟩
    subst heq
    simp [ih rest hrest]

lemma graftSensor_some_post (trainColls : List (String × List (String × TransformQT)))
    (s : TrainSensor) (testColls res : List (ℕ × List (String × TransformQT)))
    (h : graftSensor trainColls s testColls = some res) :
    ∃ qt, firstTrainTransform trainColls (generateKey s.calibParent s.calibChild) = some qt ∧
      ∀ c ∈ res, c.2.lookup (generateKey s.calibParent s.calibChild) = some qt := by
  cases trainColls with
  | nil => exact absurd h (by simp [graftSensor])
  | cons tc rest =>
    simp only [graftSensor] at h
    cases hl : tc.2.lookup (generateKey s.calibParent s.calibChild) with
    | none =>
      rw [hl] at h
      exact Option.noConfusion h
    | some qt =>
      rw [hl] at h
      exact ⟨qt, by simp [firstTrainTransform, hl], setAll_lookup _ qt testColls res h⟩

lemma graftSensor_preserve (trainColls : List (String × List (String × TransformQT)))
    (s : TrainSensor) (testColls res : List (ℕ × List (String × TransformQT)))
    (name : String) (v : TransformQT)
    (h : graftSensor trainColls s testColls = some res)
    (hfirst : firstTrainTransform trainColls name = some v)
    (hall : ∀ c ∈ testColls, c.2.lookup name = some v) :
    ∀ c ∈ res, c.2.lookup name = some v := by
  by_cases hname : generateKey s.calibParent s.calibChild = name
  · obtain ⟨qt, hqt, hpost⟩ := graftSensor_some_post trainColls s testColls res h
    rw [hname] at hqt
    have hqv : qt = v := by
      rw [hqt] at hfirst
      exact Option.some.inj hfirst
    intro c hc
    have := hpost c hc
    rw [hname, hqv] at this
    exact this
  · cases trainColls with
    | nil => exact absurd h (by simp [graftSensor])
    | cons tc rest =>
      simp only [graftSensor] at h
      cases hl : tc.2.lookup (generateKey s.calibParent s.calibChild) with
      | none =>
        rw [hl] at h
        exact Option.noConfusion h
      | some qt =>
        rw [hl] at h
        exact setAll_preserve (generateKey s.calibParent s.calibChild) qt name v
          (fun hn => hname hn.symm) testColls res h hall

lemma graftSensor_keys (trainColls : List (String × List (String × TransformQT)))
    (s : TrainSensor) (testColls res : List (ℕ × List (String × TransformQT)))
    (h : graftSensor trainColls s testColls = some res) :
    res.map Prod.fst = testColls.map Prod.fst := by
  cases trainColls with
  | nil => exact absurd h (by simp [graftSensor])
  | cons tc rest =>
    simp only [graftSensor] at h
    cases hl : tc.2.lookup (generateKey s.calibParent s.calibChild) with
    | none =>
      rw [hl] at h
      exact Option.noConfusion h
    | some qt =>
      rw [hl] at h
      exact setAll_keys _ qt testColls res h

lemma graftAll_keys :
    ∀ (ss : List TrainSensor) (trainColls : List (String × List (String × TransformQT)))
      (tcs res : List (ℕ × List (String × TransformQT))),
      graftAll ss trainColls tcs = some res → res.map Prod.fst = tcs.map Prod.fst := by
  intro ss
  induction ss with
  | nil =>
    intro trainColls tcs res h
    simp only [graftAll, Option.some.injEq] at h
    subst h
    rfl
  | cons s0 ss ih =>
    intro trainColls tcs res h
    simp only [graftAll] at h
    rcases Option.bind_eq_some.mp h with ⟨tc1, hg, hrest⟩
    rw [ih trainColls tc1 res hrest, graftSensor_keys trainColls s0 tcs tc1 hg]

lemma graftAll_preserve (name : String) (v : TransformQT) :
    ∀ (ss : List TrainSensor) (trainColls : List (String × List (String × TransformQT)))
      (tcs res : List (ℕ × List (String × TransformQT))),
      graftAll ss trainColls tcs = some res →
      firstTrainTransform trainColls name = some v →
      (∀ c ∈ tcs, c.2.lookup name = some v) →
      ∀ c ∈ res, c.2.lookup name = some v := by
  intro ss
  induction ss with
  | nil =>
    intro trainColls tcs res h _ hall
    simp only [graftAll, Option.some.injEq] at h
    subst h
    exact hall
  | cons s0 ss ih =>
    intro trainColls tcs res h hfirst hall
    simp only [graftAll] at h
    rcases Option.bind_eq_some.mp h with ⟨tc1, hg, hrest⟩
    exact ih trainColls tc1 res hrest hfirst
      (graftSensor_preserve trainColls s0 tcs tc1 name v hg hfirst hall)

/-- C9.  After the grafting loop succeeds, for every sensor of the training
dataset the named optimized transform of every test collection equals the one
read from the first training collection (in iteration order): all test
collections share one identical quaternion/translation pair, and the set of test
collections is unchanged. -/
theorem grafted_transform_shared (trainSensors : List TrainSensor)
    (trainColls : List (String × List (String × TransformQT))) (s : TrainSensor) :
    ∀ (testColls res : List (ℕ × List (String × TransformQT))),
      graftAll trainSensors trainColls testColls = some res →
      s ∈ trainSensors →
      ∃ qt, firstTrainTransform trainColls (generateKey s.calibParent s.calibChild) = some qt ∧
        (∀ c ∈ res, c.2.lookup (generateKey s.calibParent s.calibChild) = some qt) ∧
        res.map Prod.fst = testColls.map Prod.fst := by
  induction trainSensors with
  | nil =>
    intro testColls res _ hs
    exact absurd hs (by simp)
  | cons s0 ss ih =>
    intro testColls res h hs
    simp only [graftAll] at h
    rcases Option.bind_eq_some.mp h with ⟨tc1, hg, hrest⟩
    have hkeys : res.map Prod.fst = testColls.map Prod.fst := by
      rw [graftAll_keys ss trainColls tc1 res hrest,
        graftSensor_keys trainColls s0 testColls tc1 hg]
    rcases List.mem_cons.mp hs with hs0 | hs0
    · subst hs0
      obtain ⟨qt, hqt, hpost⟩ := graftSensor_some_post trainColls s testColls tc1 hg
      exact ⟨qt, hqt,
        graftAll_preserve (generateKey s.calibParent s.calibChild) qt ss trainColls
          tc1 res hrest hqt hpost, hkeys⟩
    · obtain ⟨qt, hqt, hpost, _⟩ := ih tc1 res hrest hs0
      exact ⟨qt, hqt, hpost, hkeys⟩

/-- Closed instance of `grafted_transform_shared`: one training sensor with edge
"base-cam", one training collection holding its optimized value, two test
collections holding stale values that both end up overwritten by the optimized
one. -/
theorem grafted_transform_shared_witness :
    ∃ qt, firstTrainTransform [("0", [("base-cam", ⟨[0, 0, 0, 1], [1, 2, 3]⟩)])]
        (generateKey "base" "cam") = some qt ∧
      (∀ c ∈ ([(0, [("base-cam", (⟨[0, 0, 0, 1], [1, 2, 3]⟩ : TransformQT))]),
          (1, [("base-cam", ⟨[0, 0, 0, 1], [1, 2, 3]⟩)])] :
            List (ℕ × List (String × TransformQT))),
        c.2.lookup (generateKey "base" "cam") = some qt) ∧
      ([(0, [("base-cam", (⟨[0, 0, 0, 1], [1, 2, 3]⟩ : TransformQT))]),
        (1, [("base-cam", ⟨[0, 0, 0, 1], [1, 2, 3]⟩)])] :
          List (ℕ × List (String × TransformQT))).map Prod.fst =
        ([(0, [("base-cam", (⟨[9, 9, 9, 9], [9, 9, 9]⟩ : TransformQT))]),
          (1, [("base-cam", ⟨[8, 8, 8, 8], [7, 7, 7]⟩)])] :
            List (ℕ × List (String × TransformQT))).map Prod.fst := by
  have hkey : generateKey "base" "cam" = "base-cam" := rfl
  refine grafted_transform_shared [⟨"base", "cam"⟩]
    [("0", [("base-cam", ⟨[0, 0, 0, 1], [1, 2, 3]⟩)])] ⟨"base", "cam"⟩
    [(0, [("base-cam", ⟨[9, 9, 9, 9], [9, 9, 9]⟩)]),
     (1, [("base-cam", ⟨[8, 8, 8, 8], [7, 7, 7]⟩)])]
    [(0, [("base-cam", ⟨[0, 0, 0, 1], [1, 2, 3]⟩)]),
     (1, [("base-cam", ⟨[0, 0, 0, 1], [1, 2, 3]⟩)])] ?_ (by simp)
  simp [graftAll, graftSensor, setAllCollections, setTransform, firstTrainTransform,
    hkey, List.lookup]

end AtomEval
